import Mathlib

/-! # Verification of the opkssh permission-verification and repair engine

A shallow embedding of the `permissions check` / `permissions fix` engine:
the Windows `CheckPerm` mode/owner checker, the `WindowsACLVerifier` stub,
the icacls-based `Chown` mutator, and the plan → elevation → confirm →
execute workflow of `runPermissionsFix`, together with theorems settling
the specification's claims about them. -/

/-! ## String helpers (Go `strings` package semantics) -/

/-- Characters Go's `strings.TrimSpace` removes (the ASCII ones). -/
def isGoSpace (c : Char) : Bool :=
  c = ' ' || c = '\t' || c = '\n' || c = '\x0b' || c = '\x0c' || c = '\r'

/-- Trim leading and trailing whitespace from a character list,
as `strings.TrimSpace` does. -/
def goTrimChars (l : List Char) : List Char :=
  ((l.dropWhile isGoSpace).reverse.dropWhile isGoSpace).reverse

/-- `strings.TrimSpace` on a `String`. -/
def goTrimStr (s : String) : String :=
  String.mk (goTrimChars s.data)

/-- `strings.ToLower` (over the characters; ASCII case mapping). -/
def goToLower (s : String) : String :=
  String.mk (s.data.map Char.toLower)

/-- `strings.Split(s, sep)` for a one-character separator: splits around every
occurrence of the separator, keeping empty fragments. -/
def splitOnChar (sep : Char) : List Char → List (List Char)
  | [] => [[]]
  | c :: cs =>
    if c = sep then [] :: splitOnChar sep cs
    else
      match splitOnChar sep cs with
      | t :: ts => (c :: t) :: ts
      | [] => [[c]]

/-- `strings.Split(strings.TrimSpace(s), " ")`, producing strings. -/
def splitSpace (s : String) : List String :=
  (splitOnChar ' ' (goTrimChars s.data)).map String.mk

/-- Boolean check that `p` is an initial segment of `l`. -/
def listIsPref : List Char → List Char → Bool
  | [], _ => true
  | _ :: _, [] => false
  | a :: as, b :: bs => a = b && listIsPref as bs

/-- `strings.HasSuffix s t`. -/
def strHasSuffixB (s t : String) : Bool :=
  listIsPref t.data.reverse s.data.reverse

/-- `strings.HasPrefix s t`. -/
def strHasPrefB (s t : String) : Bool :=
  listIsPref t.data s.data

/-- `strings.Contains hay needle` on character lists (case-sensitive). -/
def containsSubChars (needle : List Char) : List Char → Bool
  | [] => listIsPref needle []
  | c :: cs => listIsPref needle (c :: cs) || containsSubChars needle cs

/-- `strings.Contains hay needle` (case-sensitive substring test). -/
def containsSubStr (hay needle : String) : Bool :=
  containsSubChars needle.data hay.data

/-- `fmt`'s `%o` verb: a natural number rendered in octal. -/
def octalStr (n : Nat) : String :=
  String.mk (Nat.toDigits 8 n)

/-- Helper for `fieldsWS`: walks the characters keeping the (reversed)
current token in the accumulator, flushing it at whitespace runs. -/
def fieldsWSAux : List Char → List Char → List String
  | [], acc => if acc = [] then [] else [String.mk acc.reverse]
  | c :: rest, acc =>
    if isGoSpace c then
      if acc = [] then fieldsWSAux rest []
      else String.mk acc.reverse :: fieldsWSAux rest []
    else fieldsWSAux rest (c :: acc)

/-- Modelled from the spec: "the checker parses rawOutput as two
whitespace-separated tokens (owner, group)" (§6).  Whitespace-separated
tokens of a string, in the sense of Go's `strings.Fields`.  This is the
spec's reading of the probe output, kept separate from the source's
space-splitting so the two can be compared. -/
def fieldsWS (l : List Char) : List String :=
  fieldsWSAux l []

/-! ## Filesystem model

The commands operate over an `afero.Fs`.  We model the filesystem as an
association list from paths (component lists, avoiding platform separator
concerns of `filepath.Join`) to file metadata.  `Stat` succeeds exactly on
present paths; directory listing returns the immediate children. -/

/-- A path, as the list of its components. -/
abbrev FsPath := List String

/-- Metadata of one filesystem entry: permission bits, owning principals,
kind, and contents. -/
structure FileMeta where
  mode : Nat
  owner : String
  group : String
  isDir : Bool
  content : String
  deriving DecidableEq, Repr

/-- The filesystem state: an association list of entries. -/
abbrev FS := List (FsPath × FileMeta)

/-- `Stat`: look a path up. -/
def FS.stat : FS → FsPath → Option FileMeta
  | [], _ => none
  | (q, m) :: t, p => if q = p then some m else FS.stat t p

/-- Write an entry: replace the metadata if the path is present,
otherwise add the entry. -/
def FS.set (fs : FS) (p : FsPath) (m : FileMeta) : FS :=
  if (fs.stat p).isSome then
    fs.map (fun e => if e.1 = p then (p, m) else e)
  else
    (p, m) :: fs

/-- Remove a path's entry (used to compare states with and without a file). -/
def FS.erase (fs : FS) (p : FsPath) : FS :=
  fs.filter (fun e => e.1 ≠ p)

/-- Render a path the way error messages show it. -/
def pathStr (p : FsPath) : String :=
  "/" ++ String.intercalate "/" p

/-- If `p` is an immediate child of `dir`, its entry name. -/
def childOf (dir p : FsPath) : Option String :=
  if p.dropLast = dir then p.getLast? else none

/-- `Readdir`: the immediate children of a directory, as (name, isDir) pairs,
in filesystem-entry order. -/
def childEntries (fs : FS) (dir : FsPath) : List (String × Bool) :=
  fs.filterMap (fun e =>
    match childOf dir e.1 with
    | some n => some (n, e.2.isDir)
    | none => none)

/-- The message an `afero` `Stat` failure carries for a missing path. -/
def statErrMsg (p : FsPath) : String :=
  "open " ++ pathStr p ++ ": file does not exist"

/-! ### Basic filesystem lemmas -/

theorem FS.stat_mapset_ne (fs : FS) (p q : FsPath) (m : FileMeta) (h : q ≠ p) :
    FS.stat (fs.map (fun e => if e.1 = p then (p, m) else e)) q = fs.stat q := by
  induction fs with
  | nil => rfl
  | cons e t ih =>
    rcases e with ⟨r, mr⟩
    simp only [List.map_cons]
    by_cases hr : (r, mr).1 = p
    · rw [if_pos hr]
      simp only [FS.stat]
      rw [if_neg (fun hc => h hc.symm)]
      rw [if_neg (fun hc : r = q => h ((show r = p from hr) ▸ hc).symm)]
      exact ih
    · rw [if_neg hr]
      simp only [FS.stat]
      by_cases hq : r = q
      · rw [if_pos hq, if_pos hq]
      · rw [if_neg hq, if_neg hq]
        exact ih

theorem FS.stat_set_ne (fs : FS) (p q : FsPath) (m : FileMeta) (h : q ≠ p) :
    (fs.set p m).stat q = fs.stat q := by
  unfold FS.set
  by_cases hp : (fs.stat p).isSome
  · simp only [hp, if_true]
    exact FS.stat_mapset_ne fs p q m h
  · simp only [hp, Bool.false_eq_true, if_false, FS.stat]
    rw [if_neg (fun hc => h hc.symm)]

theorem FS.stat_mapset_self (fs : FS) (p : FsPath) (m : FileMeta)
    (hp : (fs.stat p).isSome) :
    FS.stat (fs.map (fun e => if e.1 = p then (p, m) else e)) p = some m := by
  induction fs with
  | nil => simp [FS.stat] at hp
  | cons e t ih =>
    rcases e with ⟨r, mr⟩
    simp only [List.map_cons]
    by_cases hr : (r, mr).1 = p
    · rw [if_pos hr]
      simp [FS.stat]
    · rw [if_neg hr]
      simp only [FS.stat]
      rw [if_neg hr]
      refine ih ?_
      have : FS.stat ((r, mr) :: t) p = FS.stat t p := by
        simp only [FS.stat]
        rw [if_neg hr]
      rw [this] at hp
      exact hp

theorem FS.stat_set_self (fs : FS) (p : FsPath) (m : FileMeta) :
    (fs.set p m).stat p = some m := by
  unfold FS.set
  by_cases hp : (fs.stat p).isSome
  · simp only [hp, if_true]
    exact FS.stat_mapset_self fs p m hp
  · simp [hp, FS.stat]

theorem FS.stat_erase_ne (fs : FS) (p q : FsPath) (h : q ≠ p) :
    (fs.erase p).stat q = fs.stat q := by
  induction fs with
  | nil => rfl
  | cons e t ih =>
    rcases e with ⟨r, mr⟩
    unfold FS.erase at *
    simp only [List.filter_cons]
    by_cases hr : r = p
    · have hd : (decide ((r, mr).1 ≠ p)) = false := by simp [hr]
      rw [hd]
      simp only [Bool.false_eq_true, if_false]
      rw [ih]
      simp only [FS.stat]
      rw [if_neg (fun hc : r = q => h (hr ▸ hc).symm)]
    · have hd : (decide ((r, mr).1 ≠ p)) = true := by simp [hr]
      rw [hd]
      simp only [if_true, FS.stat]
      by_cases hq : r = q
      · rw [if_pos hq, if_pos hq]
      · rw [if_neg hq, if_neg hq]
        exact ih

theorem childEntries_mapset_notchild (fs : FS) (dir p : FsPath) (m : FileMeta)
    (h : childOf dir p = none) :
    childEntries (fs.map (fun e => if e.1 = p then (p, m) else e)) dir =
      childEntries fs dir := by
  induction fs with
  | nil => rfl
  | cons e t ih =>
    rcases e with ⟨r, mr⟩
    simp only [List.map_cons, childEntries, List.filterMap_cons]
    by_cases hr : (r, mr).1 = p
    · rw [if_pos hr]
      have hrp : r = p := hr
      simp only [h, hrp ▸ h]
      exact (by simpa [childEntries] using ih)
    · rw [if_neg hr]
      cases hc : childOf dir r with
      | none => simpa [childEntries, hc] using ih
      | some n =>
        simp only [hc]
        exact congrArg _ (by simpa [childEntries] using ih)

theorem childEntries_set_notchild (fs : FS) (dir p : FsPath) (m : FileMeta)
    (h : childOf dir p = none) :
    childEntries (fs.set p m) dir = childEntries fs dir := by
  unfold FS.set
  by_cases hp : (fs.stat p).isSome
  · simp only [hp, if_true]
    exact childEntries_mapset_notchild fs dir p m h
  · simp only [hp, Bool.false_eq_true, if_false, childEntries, List.filterMap_cons, h]

theorem listIsPref_append (l m : List Char) : listIsPref l (l ++ m) = true := by
  induction l with
  | nil => rfl
  | cons c cs ih => simp [listIsPref, ih]

/-! ## Governed paths and expected modes -/

/-- Modelled from the spec: `policy.GetSystemConfigBasePath()` is declared
outside `src/`; the spec only needs a fixed configuration base under which
the governed paths live (§3, §6). -/
def systemConfigBasePath : FsPath := ["ProgramData", "opk"]

/-- Modelled from the spec: `policy.SystemDefaultPolicyPath` is declared
outside `src/`; "one system policy file" at a fixed location (§6). -/
def SystemDefaultPolicyPath : FsPath := systemConfigBasePath ++ ["auth_id"]

/-- The providers directory governed by the commands. -/
def providersDirPath : FsPath := systemConfigBasePath ++ ["providers"]

/-- The policy-plugins directory governed by the commands. -/
def pluginsDirPath : FsPath := systemConfigBasePath ++ ["policy.d"]

/-- Modelled from the spec: `files.ModeSystemPerms` is declared outside
`src/`; "a single accepted mode such as 0640" (§6), and the repository's own
test expects the message "expected one of the following permissions [640]". -/
def ModeSystemPerms : Nat := 0o640

/-- Modelled from the spec: `plugins.RequiredPolicyDirPerms()` is declared
outside `src/`; a non-empty allow-list of acceptable directory modes (§3). -/
def RequiredPolicyDirPerms : List Nat := [0o750]

/-! ## `CheckPerm` (Windows variant, `policy/files` CheckPerm) -/

/-- The pluggable external command probe: `(name, args…) → (rawOutput, error)`. -/
abbrev CmdRunner := String → List String → Except String String

/-- `PermsChecker.CheckPerm` on Windows: verifies the path stats; with a
`CmdRunner` configured it performs the Unix-style owner/group probe and the
exact permission-bit check; with no `CmdRunner` it only verifies existence. -/
def CheckPerm (fs : FS) (cmdRunner : Option CmdRunner) (path : FsPath)
    (requirePerm : List Nat) (requiredOwner requiredGroup : String) :
    Except String Unit :=
  match fs.stat path with
  | none => .error ("failed to describe the file at path: " ++ statErrMsg path)
  | some fileInfo =>
    match cmdRunner with
    | none => .ok ()
    | some run =>
      let ownerStep : Except String Unit :=
        if requiredOwner ≠ "" ∨ requiredGroup ≠ "" then
          match run "stat" ["-c", "%U %G", pathStr path] with
          | .error e => .error ("failed to run stat: " ++ e)
          | .ok statOutput =>
            let toks := splitSpace statOutput
            if toks.length ≠ 2 then
              .error ("expected stat command to return 2 values got " ++
                toString toks.length)
            else
              let statOwner := toks.getD 0 ""
              let statGroup := toks.getD 1 ""
              if requiredOwner ≠ "" ∧ requiredOwner ≠ statOwner then
                .error ("expected owner (" ++ requiredOwner ++ "), got (" ++
                  statOwner ++ ")")
              else if requiredGroup ≠ "" ∧ requiredGroup ≠ statGroup then
                .error ("expected group (" ++ requiredGroup ++ "), got (" ++
                  statGroup ++ ")")
              else .ok ()
        else .ok ()
      match ownerStep with
      | .error e => .error e
      | .ok _ =>
        let mode := fileInfo.mode % 512
        let requiredPermString := requirePerm.map (fun p => octalStr (p % 512))
        if mode ∈ requirePerm then .ok ()
        else
          .error ("expected one of the following permissions [" ++
            String.intercalate ", " requiredPermString ++ "], got (" ++
            octalStr mode ++ ")")

/-! ## `WindowsACLVerifier.VerifyACL` -/

/-- Expectations for a path's ownership/ACL. -/
structure ExpectedACL where
  owner : String
  mode : Nat
  deriving DecidableEq, Repr

/-- An access control entry (platform-agnostic minimal view). -/
structure ACE where
  principal : String
  rights : String
  type : String
  inherited : Bool
  deriving DecidableEq, Repr

/-- The structured result from verifying ACLs/ownership for a path. -/
structure ACLReport where
  path : FsPath
  existsFlag : Bool
  owner : String
  mode : Nat
  aces : List ACE
  problems : List String
  deriving DecidableEq, Repr

/-- The not-yet-implemented problem the Windows verifier stub reports. -/
def notImplementedMsg : String :=
  "Windows ACL verification is not yet implemented using Win32 APIs; add ACL verifier to check owner and ACEs"

/-- `WindowsACLVerifier.VerifyACL`: reports existence plus a problem; the
second component is the Go error return, which is always nil. -/
def VerifyACL (fs : FS) (path : FsPath) (_expected : ExpectedACL) :
    ACLReport × Option String :=
  match fs.stat path with
  | none =>
    ({ path := path, existsFlag := false, owner := "", mode := 0, aces := [],
       problems := ["open " ++ pathStr path ++ ": " ++ statErrMsg path] }, none)
  | some _ =>
    ({ path := path, existsFlag := true, owner := "", mode := 0, aces := [],
       problems := [notImplementedMsg] }, none)

/-! ## `WindowsACLFilePermsOps.Chown` (icacls mutator)

The external ACL tool is an oracle from an argument list to the combined
output and an optional execution error.  `Chown` returns the ordered list of
tool invocations it made together with its error result. -/

/-- The external icacls tool: argument list → (combined output, error). -/
abbrev IcaclsTool := List String → String × Option String

/-- `WindowsACLFilePermsOps.Chown`: maps "root" to `Administrators`, sets the
owner, optionally grants the group read rights, then ensures Administrators
and SYSTEM retain full control (best-effort, keyed on the tool's
"Successfully processed" marker). -/
def Chown (tool : IcaclsTool) (path owner group : String) :
    List (List String) × Option String :=
  if owner = "" ∧ group = "" then ([], none)
  else
    let ownerName := if owner = "root" then "Administrators" else owner
    let setownerArgs := [path, "/setowner", ownerName]
    let step1 : List (List String) × Option String :=
      if ownerName ≠ "" then
        match tool setownerArgs with
        | (out, some e) =>
          ([setownerArgs],
            some ("failed to set owner via icacls: " ++ e ++ ": " ++ out))
        | (_, none) => ([setownerArgs], none)
      else ([], none)
    match step1 with
    | (tr, some e) => (tr, some e)
    | (tr1, none) =>
      let grantArgs := [path, "/grant", group ++ ":(R)"]
      let step2 : List (List String) × Option String :=
        if group ≠ "" then
          match tool grantArgs with
          | (out, some e) =>
            (tr1 ++ [grantArgs],
              some ("failed to grant group permission via icacls: " ++ e ++
                ": " ++ out))
          | (_, none) => (tr1 ++ [grantArgs], none)
        else (tr1, none)
      match step2 with
      | (tr, some e) => (tr, some e)
      | (tr2, none) =>
        let adminArgs := [path, "/grant", "Administrators:F", "/grant", "SYSTEM:F"]
        match tool adminArgs with
        | (out, some e) =>
          if containsSubStr out "Successfully processed" then
            (tr2 ++ [adminArgs], none)
          else
            (tr2 ++ [adminArgs],
              some ("failed to ensure admin/system ACLs via icacls: " ++ e ++
                ": " ++ out))
        | (_, none) => (tr2 ++ [adminArgs], none)

/-! ## `ConfirmPrompt` -/

/-- `commands.ConfirmPrompt`: reads a line (modelled as an `Except` of the
read), lowercases and trims it, and accepts exactly "y" and "yes". -/
def ConfirmPrompt (line : Except String String) : Except String Bool :=
  match line with
  | .error e => .error e
  | .ok s =>
    let t := goTrimStr (goToLower s)
    .ok (t == "y" || t == "yes")

/-! ## Sample filesystem states used as concrete inputs -/

/-- A regular file with mode 0606. -/
def fileMeta606 : FileMeta := ⟨0o606, "root", "", false, ""⟩

/-- A regular file with mode 0640. -/
def fileMeta640 : FileMeta := ⟨0o640, "root", "opksshuser", false, ""⟩

/-- A directory with mode 0750. -/
def dirMeta750 : FileMeta := ⟨0o750, "root", "", true, ""⟩

/-- The `a.yml` plugin file inside the policy-plugins directory. -/
def aYmlPath : FsPath := pluginsDirPath ++ ["a.yml"]

/-! ## Claim C9: CheckPerm with no CmdRunner checks existence only -/

/-- C9: On Windows, when `PermsChecker.CmdRunner` is nil, `CheckPerm` returns
success for every path whose `Stat` succeeds — regardless of mode, owner,
group, or the expected-modes allow-list — and returns an error exactly when
`Stat` fails; the owner, group, and mode-bit checks are skipped entirely. -/
theorem checkPerm_nil_runner_existence_only (fs : FS) (p : FsPath)
    (modes : List Nat) (o g : String) :
    CheckPerm fs none p modes o g =
      if (fs.stat p).isSome then .ok ()
      else .error ("failed to describe the file at path: " ++ statErrMsg p) := by
  unfold CheckPerm
  cases h : fs.stat p <;> simp [h]

/-! ## Claim C4: exact mode matching (corrected) -/

/-- C4 counterexample: `CheckPerm` succeeds on a file of mode 0606 against
the allow-list [0640] when no `CmdRunner` is configured — so, as stated
over *every* path and allow-list, success is not equivalent to the mode
being a member of the allow-list. -/
theorem checkPerm_counterexample_no_runner :
    CheckPerm [(aYmlPath, fileMeta606)] none aYmlPath [0o640] "" "" = .ok () ∧
    fileMeta606.mode % 512 ∉ [0o640] ∧
    FS.stat [(aYmlPath, fileMeta606)] aYmlPath = some fileMeta606 := by
  refine ⟨rfl, by decide, rfl⟩

/-- C4 (amended): when a `CmdRunner` is configured and no owner/group check
is requested, `CheckPerm` on a path that stats successfully with a non-empty
allow-list succeeds iff the path's permission bits are exactly equal to some
element of the allow-list; on mismatch it returns exactly one error that
enumerates every acceptable value in octal alongside the actual octal value. -/
theorem checkPerm_exact_mode_match (fs : FS) (run : CmdRunner) (p : FsPath)
    (modes : List Nat) (fi : FileMeta)
    (hstat : fs.stat p = some fi) (_hmodes : modes ≠ []) :
    (CheckPerm fs (some run) p modes "" "" = .ok () ↔ fi.mode % 512 ∈ modes) ∧
    (fi.mode % 512 ∉ modes →
      CheckPerm fs (some run) p modes "" "" =
        .error ("expected one of the following permissions [" ++
          String.intercalate ", " (modes.map (fun q => octalStr (q % 512))) ++
          "], got (" ++ octalStr (fi.mode % 512) ++ ")")) := by
  have hog : ¬(("" : String) ≠ "" ∨ ("" : String) ≠ "") := by simp
  simp only [CheckPerm, hstat, if_neg hog]
  by_cases hm : fi.mode % 512 ∈ modes
  · rw [if_pos hm]
    exact ⟨by simp [hm], fun hc => absurd hm hc⟩
  · rw [if_neg hm]
    refine ⟨⟨fun h => absurd h (by simp), fun h => absurd h hm⟩, fun _ => rfl⟩

/-- C4 witness: the amended theorem applied to a 0606-mode file against the
allow-list [0640], yielding the enumerating error message. -/
theorem checkPerm_exact_mode_match_witness :
    CheckPerm [(aYmlPath, fileMeta606)] (some (fun _ _ => .ok "root opksshuser"))
        aYmlPath [0o640] "" "" =
      .error "expected one of the following permissions [640], got (606)" := by
  have h := (checkPerm_exact_mode_match [(aYmlPath, fileMeta606)]
      (fun _ _ => .ok "root opksshuser") aYmlPath [0o640] fileMeta606 rfl
      (by decide)).2 (by decide)
  exact h

/-! ## Claim C10: the Windows ACL verifier stub -/

/-- C10: `WindowsACLVerifier.VerifyACL` always returns a nil error and its
report always carries exactly one problem: the stat-failure description when
the path is missing (Exists=false), the not-yet-implemented notice when it
stats (Exists=true) — so the passing state (Exists=true with zero problems)
is never produced. -/
theorem verifyACL_never_passes (fs : FS) (p : FsPath) (exp : ExpectedACL) :
    (VerifyACL fs p exp).2 = none ∧
    (VerifyACL fs p exp).1.problems.length = 1 ∧
    (VerifyACL fs p exp).1.existsFlag = (fs.stat p).isSome ∧
    ((fs.stat p).isSome →
      (VerifyACL fs p exp).1.problems = [notImplementedMsg]) ∧
    (fs.stat p = none →
      (VerifyACL fs p exp).1.problems =
        ["open " ++ pathStr p ++ ": " ++ statErrMsg p]) ∧
    ¬((VerifyACL fs p exp).1.existsFlag = true ∧
      (VerifyACL fs p exp).1.problems = []) := by
  cases h : fs.stat p <;> simp [VerifyACL, h]

/-- C10 witness: the verifier on an empty filesystem reports the
stat-failure problem with a nil error. -/
theorem verifyACL_never_passes_witness :
    (VerifyACL [] SystemDefaultPolicyPath ⟨"root", 0o640⟩).2 = none ∧
    (VerifyACL [] SystemDefaultPolicyPath ⟨"root", 0o640⟩).1.problems =
      ["open " ++ pathStr SystemDefaultPolicyPath ++ ": " ++
        statErrMsg SystemDefaultPolicyPath] :=
  ⟨(verifyACL_never_passes [] SystemDefaultPolicyPath ⟨"root", 0o640⟩).1,
   (verifyACL_never_passes [] SystemDefaultPolicyPath ⟨"root", 0o640⟩).2.2.2.2.1 rfl⟩

/-! ## Claim C7: probe-output parsing (corrected) -/

/-- C7 counterexample: a probe output consisting of exactly two
whitespace-separated tokens — separated by a tab — whose first token equals
the expected owner still draws the hard two-values parse error, because the
source splits on the single space character, not on whitespace. -/
theorem checkPerm_counterexample_tab_output :
    CheckPerm [(SystemDefaultPolicyPath, fileMeta640)]
        (some (fun _ _ => .ok "root\topksshuser"))
        SystemDefaultPolicyPath [0o640] "root" "" =
      .error "expected stat command to return 2 values got 1" ∧
    fieldsWS "root\topksshuser".data = ["root", "opksshuser"] :=
  ⟨rfl, rfl⟩

/-- C7 (amended): when an owner or group check is requested and a
`CmdRunner` is configured, `CheckPerm` splits the probe's raw output on the
single space character (after trimming surrounding whitespace) and returns a
hard error for any output that does not split into exactly two tokens; the
owner is compared to the expected owner by exact string equality; and the
probe answer "root opksshuser" with expected owner "root" and no group check
reports no ownership problem. -/
theorem checkPerm_probe_two_space_tokens :
    (∀ (fs : FS) (run : CmdRunner) (p : FsPath) (modes : List Nat)
       (o g : String) (fi : FileMeta) (out : String),
       fs.stat p = some fi →
       (o ≠ "" ∨ g ≠ "") →
       run "stat" ["-c", "%U %G", pathStr p] = .ok out →
       (splitSpace out).length ≠ 2 →
       CheckPerm fs (some run) p modes o g =
         .error ("expected stat command to return 2 values got " ++
           toString (splitSpace out).length)) ∧
    (∀ (fs : FS) (run : CmdRunner) (p : FsPath) (modes : List Nat)
       (o g : String) (fi : FileMeta) (out ow gr : String),
       fs.stat p = some fi →
       o ≠ "" →
       run "stat" ["-c", "%U %G", pathStr p] = .ok out →
       splitSpace out = [ow, gr] →
       o ≠ ow →
       CheckPerm fs (some run) p modes o g =
         .error ("expected owner (" ++ o ++ "), got (" ++ ow ++ ")")) ∧
    (∀ (fs : FS) (p : FsPath) (fi : FileMeta),
       fs.stat p = some fi →
       CheckPerm fs (some (fun _ _ => .ok "root opksshuser")) p
         [fi.mode % 512] "root" "" = .ok ()) := by
  refine ⟨?_, ?_, ?_⟩
  · intro fs run p modes o g fi out hstat hog hrun hlen
    simp only [CheckPerm, hstat, hrun, if_pos hog, if_pos hlen]
  · intro fs run p modes o g fi out ow gr hstat ho hrun hsplit hne
    simp only [CheckPerm, hstat, hrun, if_pos (Or.inl ho), hsplit]
    rw [if_neg (show ¬(([ow, gr] : List String).length ≠ 2) by simp)]
    have hgd : (([ow, gr] : List String).getD 0 "") = ow := rfl
    rw [hgd, if_pos ⟨ho, hne⟩]
  · intro fs p fi hstat
    have h1 : splitSpace "root opksshuser" = ["root", "opksshuser"] := rfl
    simp [CheckPerm, hstat, h1]

/-- C7 witness: the amended theorem applied to a three-token output, to a
two-token output with a foreign owner, and to the "root opksshuser"
scenario. -/
theorem checkPerm_probe_two_space_tokens_witness :
    (CheckPerm [(SystemDefaultPolicyPath, fileMeta640)]
        (some (fun _ _ => .ok "a b c")) SystemDefaultPolicyPath [0o640]
        "root" "" =
      .error "expected stat command to return 2 values got 3") ∧
    (CheckPerm [(SystemDefaultPolicyPath, fileMeta640)]
        (some (fun _ _ => .ok "alice users")) SystemDefaultPolicyPath [0o640]
        "root" "" =
      .error "expected owner (root), got (alice)") ∧
    (CheckPerm [(SystemDefaultPolicyPath, fileMeta640)]
        (some (fun _ _ => .ok "root opksshuser")) SystemDefaultPolicyPath
        [fileMeta640.mode % 512] "root" "" = .ok ()) := by
  refine ⟨?_, ?_, ?_⟩
  · exact checkPerm_probe_two_space_tokens.1 _ _ _ _ _ _ fileMeta640 "a b c"
      rfl (Or.inl (by decide)) rfl (by decide)
  · exact checkPerm_probe_two_space_tokens.2.1 _ _ _ _ _ _ fileMeta640
      "alice users" "alice" "users" rfl (by decide) rfl rfl (by decide)
  · exact checkPerm_probe_two_space_tokens.2.2 _ _ fileMeta640 rfl

/-! ## Claim C8: the icacls `Chown` mutator -/

/-- C8: `Chown` maps a requested owner of "root" to the `Administrators`
group principal in its first tool invocation; and in the final
admin/system full-control step, a tool failure is treated as success iff the
tool's output contains "Successfully processed" (case-sensitively),
otherwise the failure is returned as an error. -/
theorem chown_root_mapping_and_marker :
    (∀ (tool : IcaclsTool) (path group : String),
       (Chown tool path "root" group).1.head? =
         some [path, "/setowner", "Administrators"]) ∧
    (∀ (tool : IcaclsTool) (path owner group out e : String),
       ¬(owner = "" ∧ group = "") →
       ((if owner = "root" then "Administrators" else owner) ≠ "" →
         (tool [path, "/setowner",
           if owner = "root" then "Administrators" else owner]).2 = none) →
       (group ≠ "" → (tool [path, "/grant", group ++ ":(R)"]).2 = none) →
       tool [path, "/grant", "Administrators:F", "/grant", "SYSTEM:F"] =
         (out, some e) →
       ((Chown tool path owner group).2 = none ↔
         containsSubStr out "Successfully processed" = true) ∧
       (containsSubStr out "Successfully processed" = false →
         (Chown tool path owner group).2 =
           some ("failed to ensure admin/system ACLs via icacls: " ++ e ++
             ": " ++ out))) := by
  constructor
  · intro tool path group
    have hne : ¬(("root" : String) = "" ∧ group = "") := by
      intro h
      exact absurd h.1 (by decide)
    unfold Chown
    rw [if_neg hne]
    rw [show (if ("root" : String) = "root" then ("Administrators" : String)
        else "root") = "Administrators" from rfl]
    dsimp only
    rw [if_pos (show ("Administrators" : String) ≠ "" by decide)]
    rcases h1 : tool [path, "/setowner", "Administrators"] with ⟨out1, err1⟩
    cases err1 with
    | some e1 => simp
    | none =>
      dsimp only
      by_cases hg : group ≠ ""
      · rw [if_pos hg]
        rcases h2 : tool [path, "/grant", group ++ ":(R)"] with ⟨out2, err2⟩
        cases err2 with
        | some e2 => simp
        | none =>
          dsimp only
          rcases h3 : tool [path, "/grant", "Administrators:F", "/grant", "SYSTEM:F"]
            with ⟨out3, err3⟩
          cases err3 with
          | some e3 =>
            dsimp only
            by_cases hc : containsSubStr out3 "Successfully processed" = true
            · rw [if_pos hc]; simp
            · rw [if_neg hc]; simp
          | none => simp
      · rw [if_neg hg]
        dsimp only
        rcases h3 : tool [path, "/grant", "Administrators:F", "/grant", "SYSTEM:F"]
          with ⟨out3, err3⟩
        cases err3 with
        | some e3 =>
          dsimp only
          by_cases hc : containsSubStr out3 "Successfully processed" = true
          · rw [if_pos hc]; simp
          · rw [if_neg hc]; simp
        | none => simp
  · intro tool path owner group out e hne h1 h2 h3
    simp only [Chown, if_neg hne]
    by_cases hon : (if owner = "root" then ("Administrators" : String) else owner) ≠ ""
    · have h1' := h1 hon
      rcases ht1 : tool [path, "/setowner",
          if owner = "root" then "Administrators" else owner] with ⟨out1, err1⟩
      rw [ht1] at h1'
      simp only at h1'
      subst h1'
      rw [if_pos hon]
      dsimp only
      by_cases hg : group ≠ ""
      · have h2' := h2 hg
        rcases ht2 : tool [path, "/grant", group ++ ":(R)"] with ⟨out2, err2⟩
        rw [ht2] at h2'
        simp only at h2'
        subst h2'
        rw [if_pos hg]
        dsimp only
        rw [h3]
        dsimp only
        by_cases hc : containsSubStr out "Successfully processed" = true
        · rw [if_pos hc]
          simp [hc]
        · rw [if_neg hc]
          constructor
          · simp [hc]
          · intro _; rfl
      · rw [if_neg hg]
        dsimp only
        rw [h3]
        dsimp only
        by_cases hc : containsSubStr out "Successfully processed" = true
        · rw [if_pos hc]
          simp [hc]
        · rw [if_neg hc]
          constructor
          · simp [hc]
          · intro _; rfl
    · rw [if_neg hon]
      dsimp only
      have howner : owner = "" := by
        by_cases hro : owner = "root"
        · rw [if_pos hro] at hon
          exact absurd (show ("Administrators" : String) ≠ "" by decide) hon
        · rw [if_neg hro] at hon
          exact not_not.mp hon
      have hg : group ≠ "" := fun hgeq => hne ⟨howner, hgeq⟩
      have h2' := h2 hg
      rcases ht2 : tool [path, "/grant", group ++ ":(R)"] with ⟨out2, err2⟩
      rw [ht2] at h2'
      simp only at h2'
      subst h2'
      rw [if_pos hg]
      dsimp only
      rw [h3]
      dsimp only
      by_cases hc : containsSubStr out "Successfully processed" = true
      · rw [if_pos hc]
        simp [hc]
      · rw [if_neg hc]
        constructor
        · simp [hc]
        · intro _; rfl

/-- C8 witness: a tool that fails the final admin/system grant without the
success marker makes `Chown` return the ensure-ACLs error, and the first
invocation for owner "root" targets `Administrators`. -/
theorem chown_root_mapping_and_marker_witness :
    (Chown
        (fun args => if args.length = 5 then ("nope", some "exit status 1")
          else ("", none))
        "/cfg" "root" "opksshuser").1.head? =
      some ["/cfg", "/setowner", "Administrators"] ∧
    (Chown
        (fun args => if args.length = 5 then ("nope", some "exit status 1")
          else ("", none))
        "/cfg" "root" "opksshuser").2 =
      some "failed to ensure admin/system ACLs via icacls: exit status 1: nope" := by
  constructor
  · exact chown_root_mapping_and_marker.1 _ "/cfg" "opksshuser"
  · exact (chown_root_mapping_and_marker.2 _ "/cfg" "root" "opksshuser" "nope"
      "exit status 1" (by intro h; exact absurd h.1 (by decide))
      (fun _ => rfl) (fun _ => rfl) rfl).2 rfl

/-! ## `runPermissionsCheck`

The command builds the problem list over the three governed paths.  The
checker it constructs carries the baked-in permissive `CmdRunner` that
answers "root opksshuser".  Printing (the ACL report dump and the
"Problem:" lines) is not modelled; the problem list itself and the returned
error are. -/

/-- The permissive `CmdRunner` wired into the checker by the command. -/
def checkRunner : CmdRunner := fun _ _ => .ok "root opksshuser"

/-- `commands.runPermissionsCheck`: returns the collected problem list and
the command's error result. -/
def runPermissionsCheck (fs : FS) : List String × Except String Unit :=
  let problems1 : List String :=
    match fs.stat SystemDefaultPolicyPath with
    | none =>
      [pathStr SystemDefaultPolicyPath ++ ": " ++ statErrMsg SystemDefaultPolicyPath]
    | some _ =>
      let p1 : List String :=
        match CheckPerm fs (some checkRunner) SystemDefaultPolicyPath
            [ModeSystemPerms] "root" "" with
        | .error e => [pathStr SystemDefaultPolicyPath ++ ": " ++ e]
        | .ok _ => []
      match (VerifyACL fs SystemDefaultPolicyPath ⟨"root", ModeSystemPerms⟩).2 with
      | some e =>
        p1 ++ [pathStr SystemDefaultPolicyPath ++ ": acl verify error: " ++ e]
      | none => p1
  let problems2 : List String :=
    problems1 ++
      match fs.stat providersDirPath with
      | none => [pathStr providersDirPath ++ ": " ++ statErrMsg providersDirPath]
      | some _ => []
  let problems3 : List String :=
    problems2 ++
      match fs.stat pluginsDirPath with
      | none => [pathStr pluginsDirPath ++ ": " ++ statErrMsg pluginsDirPath]
      | some _ =>
        match CheckPerm fs (some checkRunner) pluginsDirPath
            RequiredPolicyDirPerms "root" "" with
        | .error e => [pathStr pluginsDirPath ++ ": " ++ e]
        | .ok _ => []
  (problems3,
    if problems3.length > 0 then
      .error ("permissions check failed: " ++ toString problems3.length ++
        " problems found")
    else .ok ())

/-! ## The direct `FilePermsOps` mutators

Modelled from the spec: the implementation bound by
`files.NewDefaultFilePermsOps` is not under `src/`.  Per §4.2 the direct
variant "maps 1:1 onto filesystem primitives" and `setOwner` "resolves
symbolic owner/group names to platform identities before applying", each
operation independently failable; per §6 all operations go through the
abstract filesystem capability.  The environment carries the resolvable
principal names. -/

/-- The principal names the platform can resolve (owner/group lookup). -/
structure MutEnv where
  knownUsers : List String
  knownGroups : List String
  deriving DecidableEq, Repr

/-- Metadata of a freshly created file. -/
def newFileMeta : FileMeta := ⟨0, "", "", false, ""⟩

/-- Metadata of a freshly created directory with the requested mode. -/
def newDirMeta (m : Nat) : FileMeta := ⟨m, "", "", true, ""⟩

/-- `CreateFileWithPerm`: create (or truncate to) an empty file. -/
def opCreateFile (fs : FS) (p : FsPath) : FS × Option String :=
  (fs.set p newFileMeta, none)

/-- `Chmod`: set the permission bits of an existing entry. -/
def opChmod (fs : FS) (p : FsPath) (m : Nat) : FS × Option String :=
  match fs.stat p with
  | none => (fs, some (statErrMsg p))
  | some fi => (fs.set p { fi with mode := m }, none)

/-- `Chown` (direct variant): resolve the requested principals and set them;
an empty owner or group means "leave unchanged". -/
def opChown (env : MutEnv) (fs : FS) (p : FsPath) (owner group : String) :
    FS × Option String :=
  match fs.stat p with
  | none => (fs, some (statErrMsg p))
  | some fi =>
    if owner ≠ "" ∧ owner ∉ env.knownUsers then
      (fs, some ("user: unknown user " ++ owner))
    else if group ≠ "" ∧ group ∉ env.knownGroups then
      (fs, some ("group: unknown group " ++ group))
    else
      (fs.set p
        { fi with
          owner := if owner = "" then fi.owner else owner,
          group := if group = "" then fi.group else group }, none)

/-- The non-empty prefixes of a path, shortest first. -/
def pathPrefixes (p : FsPath) : List FsPath :=
  (List.range p.length).map (fun i => p.take (i + 1))

/-- Create every missing directory in the given prefix list, in order. -/
def mkdirs (m : Nat) : FS → List FsPath → FS
  | fs, [] => fs
  | fs, q :: rest =>
    mkdirs m (if (fs.stat q).isSome then fs else fs.set q (newDirMeta m)) rest

/-- `MkdirAllWithPerm`: succeed if the path is an existing directory, fail on
an existing non-directory, otherwise create the path and its parents. -/
def opMkdirAll (fs : FS) (p : FsPath) (m : Nat) : FS × Option String :=
  match fs.stat p with
  | some fi =>
    if fi.isDir then (fs, none) else (fs, some (pathStr p ++ ": not a directory"))
  | none => (mkdirs m fs (pathPrefixes p), none)

/-! ## `runPermissionsFix` -/

/-- One mutation of the repair plan. -/
inductive FixAction where
  | createFile (p : FsPath)
  | chmodPath (p : FsPath) (m : Nat)
  | chownPath (p : FsPath) (owner group : String)
  | mkdirPath (p : FsPath) (m : Nat)
  deriving DecidableEq, Repr

/-- Dispatch one action to its mutator. -/
def runAction (env : MutEnv) (fs : FS) : FixAction → FS × Option String
  | .createFile p => opCreateFile fs p
  | .chmodPath p m => opChmod fs p m
  | .chownPath p o g => opChown env fs p o g
  | .mkdirPath p m => opMkdirAll fs p m

/-- The prefix `runPermissionsFix` gives an action's collected error. -/
def actionTag : FixAction → String
  | .createFile p => "create " ++ pathStr p
  | .chmodPath p _ => "chmod " ++ pathStr p
  | .chownPath p _ _ => "chown " ++ pathStr p
  | .mkdirPath p _ => "mkdir " ++ pathStr p

/-- Attempt one action on the running state, collecting its error (if any)
at the end of the error list, exactly as the execution phase does. -/
def execStep (env : MutEnv) (st : FS × List String) (a : FixAction) :
    FS × List String :=
  match runAction env st.1 a with
  | (fs2, none) => (fs2, st.2)
  | (fs2, some e) => (fs2, st.2 ++ [actionTag a ++ ": " ++ e])

/-- The `.yml` entries of the plugins directory: `Open` succeeds iff the path
exists; `Readdir` lists children of a directory and fails (yielding no
entries) on a plain file; entries keep only non-directories with the `.yml`
suffix. -/
def ymlNames (fs : FS) : List String :=
  match fs.stat pluginsDirPath with
  | none => []
  | some m =>
    if m.isDir then
      (childEntries fs pluginsDirPath).filterMap (fun e =>
        if !e.2 && strHasSuffixB e.1 ".yml" then some e.1 else none)
    else []

/-- Execution, stage 1: ensure the system policy file exists. -/
def fixStage1 (env : MutEnv) (fs : FS) : FS × List String :=
  match fs.stat SystemDefaultPolicyPath with
  | none => execStep env (fs, []) (.createFile SystemDefaultPolicyPath)
  | some _ => (fs, [])

/-- Execution, through stage 3: chmod and chown the system policy file. -/
def fixStage3 (env : MutEnv) (fs : FS) : FS × List String :=
  execStep env
    (execStep env (fixStage1 env fs)
      (.chmodPath SystemDefaultPolicyPath ModeSystemPerms))
    (.chownPath SystemDefaultPolicyPath "root" "opksshuser")

/-- Execution, stage 4: ensure the providers directory exists. -/
def fixStage4 (env : MutEnv) (fs : FS) : FS × List String :=
  match (fixStage3 env fs).1.stat providersDirPath with
  | none => execStep env (fixStage3 env fs) (.mkdirPath providersDirPath 0o750)
  | some _ => fixStage3 env fs

/-- Execution, stage 5: chown the providers directory. -/
def fixStage5 (env : MutEnv) (fs : FS) : FS × List String :=
  execStep env (fixStage4 env fs) (.chownPath providersDirPath "root" "")

/-- Execution, stage 6: ensure the plugins directory exists. -/
def fixStage6 (env : MutEnv) (fs : FS) : FS × List String :=
  match (fixStage5 env fs).1.stat pluginsDirPath with
  | none => execStep env (fixStage5 env fs) (.mkdirPath pluginsDirPath 0o750)
  | some _ => fixStage5 env fs

/-- The execution phase of `runPermissionsFix` (lines after the privilege and
confirmation gates): straight-line application of every repair action,
collecting failures; finally each `.yml` plugin file is chmodded and
chowned. -/
def fixExec (env : MutEnv) (fs : FS) : FS × List String :=
  (ymlNames (fixStage6 env fs).1).foldl (fun st n =>
    execStep env
      (execStep env st (.chmodPath (pluginsDirPath ++ [n]) ModeSystemPerms))
      (.chownPath (pluginsDirPath ++ [n]) "root" "")) (fixStage6 env fs)

/-- The plan, as derived from the initial filesystem state: creation actions
for missing paths, then the unconditional mode/owner actions, then the
per-plugin-file pairs. -/
def fixActions (fs : FS) : List FixAction :=
  (match fs.stat SystemDefaultPolicyPath with
   | none => [.createFile SystemDefaultPolicyPath]
   | some _ => []) ++
  [.chmodPath SystemDefaultPolicyPath ModeSystemPerms,
   .chownPath SystemDefaultPolicyPath "root" "opksshuser"] ++
  (match fs.stat providersDirPath with
   | none => [.mkdirPath providersDirPath 0o750]
   | some _ => []) ++
  [.chownPath providersDirPath "root" ""] ++
  (match fs.stat pluginsDirPath with
   | none => [.mkdirPath pluginsDirPath 0o750]
   | some _ => []) ++
  (ymlNames fs).foldr (fun n acc =>
    .chmodPath (pluginsDirPath ++ [n]) ModeSystemPerms ::
    .chownPath (pluginsDirPath ++ [n]) "root" "" :: acc) []

/-- `commands.runPermissionsFix`: planning is read-only (and its printed
output is not modelled); dry-run stops before the elevation probe and the
confirmation gate; a live run requires the probe to answer elevated and the
user (or the `--yes` flag) to confirm, then executes the plan collecting
per-action failures. -/
def runPermissionsFix (env : MutEnv) (fs : FS) (elevated : Except String Bool)
    (confirm : Except String Bool) (dryRun yes _verbose : Bool) :
    FS × Except String Unit :=
  if dryRun then (fs, .ok ())
  else
    match elevated with
    | .error e => (fs, .error ("failed to determine elevation: " ++ e))
    | .ok false =>
      (fs, .error "fix requires elevated privileges (run as root or Administrator)")
    | .ok true =>
      let gate : Except String Unit :=
        if yes then .ok ()
        else
          match confirm with
          | .error e => .error e
          | .ok true => .ok ()
          | .ok false => .error "aborted by user"
      match gate with
      | .error e => (fs, .error e)
      | .ok _ =>
        let res := fixExec env fs
        if res.2.length > 0 then
          (res.1, .error ("fix completed with " ++ toString res.2.length ++ " errors"))
        else (res.1, .ok ())

/-! ## Claim C1: dry-run mutates nothing and always succeeds -/

/-- C1: for every filesystem state, `permissions fix --dry-run` leaves the
state untouched (every governed path's existence, contents, mode and owner
included), consults neither the elevation probe nor the confirmation prompt
(the result is the same for every probe and every prompt answer), and
returns success regardless of what was planned. -/
theorem fix_dry_run_no_mutation (env : MutEnv) (fs : FS)
    (elevated confirm : Except String Bool) (yes verbose : Bool) :
    runPermissionsFix env fs elevated confirm true yes verbose = (fs, .ok ()) := rfl

/-! ## Claim C2: a negative confirmation aborts without mutating -/

/-- C2: without `--dry-run` and without `--yes`, when the prompt's answer is
any token other than an affirmative one (its lowercased, trimmed form is
neither "y" nor "yes"), the command returns the "aborted by user" error and
the filesystem is unchanged. -/
theorem fix_negative_confirmation_aborts (env : MutEnv) (fs : FS)
    (ans : String) (verbose : Bool)
    (h1 : goTrimStr (goToLower ans) ≠ "y") (h2 : goTrimStr (goToLower ans) ≠ "yes") :
    runPermissionsFix env fs (.ok true) (ConfirmPrompt (.ok ans)) false false
        verbose =
      (fs, .error "aborted by user") := by
  have hb : ConfirmPrompt (.ok ans) = .ok false := by
    simp only [ConfirmPrompt]
    have e1 : (goTrimStr (goToLower ans) == "y") = false := by
      rw [beq_eq_false_iff_ne]
      exact h1
    have e2 : (goTrimStr (goToLower ans) == "yes") = false := by
      rw [beq_eq_false_iff_ne]
      exact h2
    rw [e1, e2]
    rfl
  simp [runPermissionsFix, hb]

/-- C2 witness: answering "n" aborts the fix on an empty filesystem. -/
theorem fix_negative_confirmation_aborts_witness :
    runPermissionsFix ⟨["root"], ["opksshuser"]⟩ [] (.ok true)
        (ConfirmPrompt (.ok "n")) false false false =
      ([], .error "aborted by user") :=
  fix_negative_confirmation_aborts _ _ "n" false (by decide) (by decide)

/-! ## Claim C3: the elevation gate -/

/-- C3: without `--dry-run`, a probe error aborts with an error distinct
from the not-elevated message, a not-elevated answer aborts with the
elevation-required error, and in both cases the filesystem is returned
unchanged — no mutation happens before or after the gate. -/
theorem fix_elevation_gate (env : MutEnv) (fs : FS)
    (confirm : Except String Bool) (yes verbose : Bool) :
    (∀ e : String,
      runPermissionsFix env fs (.error e) confirm false yes verbose =
        (fs, .error ("failed to determine elevation: " ++ e))) ∧
    (runPermissionsFix env fs (.ok false) confirm false yes verbose =
      (fs, .error "fix requires elevated privileges (run as root or Administrator)")) ∧
    (∀ e : String,
      "failed to determine elevation: " ++ e ≠
        "fix requires elevated privileges (run as root or Administrator)") := by
  refine ⟨fun e => rfl, rfl, fun e h => ?_⟩
  have h1 : strHasPrefB ("failed to determine elevation: " ++ e)
      "failed to determine elevation: " = true := by
    unfold strHasPrefB
    have hd : ("failed to determine elevation: " ++ e).data =
        ("failed to determine elevation: ").data ++ e.data := rfl
    rw [hd]
    exact listIsPref_append _ _
  rw [h] at h1
  exact absurd h1 (by decide)

/-- C3 witness: a failing probe and a not-elevated probe on an empty
filesystem. -/
theorem fix_elevation_gate_witness :
    runPermissionsFix ⟨[], []⟩ [] (.error "probe broken") (.ok true) false
        false false =
      ([], .error "failed to determine elevation: probe broken") ∧
    runPermissionsFix ⟨[], []⟩ [] (.ok false) (.ok true) false true false =
      ([], .error "fix requires elevated privileges (run as root or Administrator)") :=
  ⟨(fix_elevation_gate ⟨[], []⟩ [] (.ok true) false false).1 "probe broken",
   (fix_elevation_gate ⟨[], []⟩ [] (.ok true) true false).2.1⟩

/-! ## Claim C5: `permissions check` and plugin files (corrected) -/

theorem CheckPerm_stat_congr (fs fs2 : FS) (r : Option CmdRunner) (p : FsPath)
    (modes : List Nat) (o g : String) (h : fs.stat p = fs2.stat p) :
    CheckPerm fs r p modes o g = CheckPerm fs2 r p modes o g := by
  unfold CheckPerm
  rw [h]

theorem VerifyACL_stat_congr (fs fs2 : FS) (p : FsPath) (exp : ExpectedACL)
    (h : fs.stat p = fs2.stat p) :
    VerifyACL fs p exp = VerifyACL fs2 p exp := by
  unfold VerifyACL
  rw [h]

/-- `runPermissionsCheck` reads nothing but the stats of the three governed
paths: states agreeing there produce identical output. -/
theorem runPermissionsCheck_congr (fs fs2 : FS)
    (h1 : fs.stat SystemDefaultPolicyPath = fs2.stat SystemDefaultPolicyPath)
    (h2 : fs.stat providersDirPath = fs2.stat providersDirPath)
    (h3 : fs.stat pluginsDirPath = fs2.stat pluginsDirPath) :
    runPermissionsCheck fs = runPermissionsCheck fs2 := by
  unfold runPermissionsCheck
  rw [h1, h2, h3,
    CheckPerm_stat_congr fs fs2 (some checkRunner) SystemDefaultPolicyPath
      [ModeSystemPerms] "root" "" h1,
    VerifyACL_stat_congr fs fs2 SystemDefaultPolicyPath ⟨"root", ModeSystemPerms⟩ h1,
    CheckPerm_stat_congr fs fs2 (some checkRunner) pluginsDirPath
      RequiredPolicyDirPerms "root" "" h3]

/-- A compliant filesystem whose plugins directory contains `a.yml` with
mode 0606. -/
def fsCheckOk : FS :=
  [(SystemDefaultPolicyPath, fileMeta640),
   (providersDirPath, dirMeta750),
   (pluginsDirPath, dirMeta750),
   (aYmlPath, fileMeta606)]

/-- C5 counterexample: with `a.yml` of mode 0606 present in the plugins
directory (and the three governed paths compliant), `permissions check`
reports zero problems — in particular not exactly one problem for `a.yml`:
the command never inspects individual plugin files. -/
theorem check_counterexample_plugin_file_ignored :
    FS.stat fsCheckOk aYmlPath = some fileMeta606 ∧
    fileMeta606.mode % 512 = 0o606 ∧
    runPermissionsCheck fsCheckOk = ([], .ok ()) :=
  ⟨rfl, rfl, rfl⟩

/-- `CheckPerm` under the command's baked probe, for owner "root": the
owner check passes and the result is the pure mode verdict. -/
theorem CheckPerm_checkRunner_root (fs : FS) (p : FsPath) (modes : List Nat)
    (fi : FileMeta) (hstat : fs.stat p = some fi) :
    CheckPerm fs (some checkRunner) p modes "root" "" =
      (if fi.mode % 512 ∈ modes then .ok ()
       else
         .error ("expected one of the following permissions [" ++
           String.intercalate ", " (modes.map (fun q => octalStr (q % 512))) ++
           "], got (" ++ octalStr (fi.mode % 512) ++ ")")) := by
  simp only [CheckPerm, hstat, checkRunner]
  rw [if_pos (Or.inl (show ("root" : String) ≠ "" by decide))]
  rw [show splitSpace "root opksshuser" = ["root", "opksshuser"] from rfl]
  rw [if_neg (show ¬((["root", "opksshuser"] : List String).length ≠ 2) by simp)]
  rw [if_neg (show ¬(("root" : String) ≠ "" ∧ ("root" : String) ≠
    (["root", "opksshuser"] : List String).getD 0 "") by simp)]
  rw [if_neg (show ¬(("" : String) ≠ "" ∧ ("" : String) ≠
    (["root", "opksshuser"] : List String).getD 1 "") by simp)]

/-- C5 (amended): `permissions check` does not inspect individual `.yml`
files inside the plugins directory — its output is unchanged whether
`a.yml` is present or not — while `CheckPerm` applied directly to `a.yml`
with the allow-list [0640] yields exactly one error containing "expected one
of the following permissions [640], got (606)". -/
theorem check_ignores_plugin_files (fs : FS) (fi : FileMeta)
    (hstat : fs.stat aYmlPath = some fi) (hmode : fi.mode % 512 = 0o606) :
    runPermissionsCheck fs = runPermissionsCheck (fs.erase aYmlPath) ∧
    CheckPerm fs (some checkRunner) aYmlPath [0o640] "root" "" =
      .error "expected one of the following permissions [640], got (606)" := by
  constructor
  · exact runPermissionsCheck_congr fs (fs.erase aYmlPath)
      (FS.stat_erase_ne fs aYmlPath SystemDefaultPolicyPath (by decide)).symm
      (FS.stat_erase_ne fs aYmlPath providersDirPath (by decide)).symm
      (FS.stat_erase_ne fs aYmlPath pluginsDirPath (by decide)).symm
  · rw [CheckPerm_checkRunner_root fs aYmlPath [0o640] fi hstat, hmode]
    rw [if_neg (show (0o606 : Nat) ∉ ([0o640] : List Nat) by decide)]
    rfl

/-- C5 witness: the amended theorem applied to the concrete compliant
state containing `a.yml` with mode 0606. -/
theorem check_ignores_plugin_files_witness :
    runPermissionsCheck fsCheckOk = runPermissionsCheck (fsCheckOk.erase aYmlPath) ∧
    CheckPerm fsCheckOk (some checkRunner) aYmlPath [0o640] "root" "" =
      .error "expected one of the following permissions [640], got (606)" :=
  check_ignores_plugin_files fsCheckOk fileMeta606 rfl rfl

/-! ## Claim C6: execution runs the whole plan, collecting failures

The central fact is that the straight-line execution phase equals a left
fold of `execStep` over the action list derived from the initial state:
every action is attempted in order whatever the earlier outcomes, each
failure is appended to the collected list, and the final verdict depends
only on whether that list is empty. -/

/-- The paths an action writes (a directory creation touches every prefix). -/
def actionWrites : FixAction → List FsPath
  | .createFile p => [p]
  | .chmodPath p _ => [p]
  | .chownPath p _ _ => [p]
  | .mkdirPath p _ => pathPrefixes p

theorem stat_mkdirs_notin (m : Nat) (l : List FsPath) :
    ∀ (fs : FS) (q : FsPath), q ∉ l → (mkdirs m fs l).stat q = fs.stat q := by
  induction l with
  | nil => intro fs q _; rfl
  | cons r rest ih =>
    intro fs q hq
    have hqr : q ≠ r := fun he => hq (by rw [he]; exact List.mem_cons_self _ _)
    have hqrest : q ∉ rest := fun hmem => hq (List.mem_cons_of_mem _ hmem)
    simp only [mkdirs]
    rw [ih _ q hqrest]
    by_cases hr : (FS.stat fs r).isSome
    · rw [if_pos hr]
    · rw [if_neg hr]
      exact FS.stat_set_ne fs r q _ hqr

theorem stat_mkdirs_present (m : Nat) (l : List FsPath) :
    ∀ (fs : FS) (p : FsPath) (d : FileMeta),
    fs.stat p = some d → (mkdirs m fs l).stat p = some d := by
  induction l with
  | nil => intro fs p d h; exact h
  | cons r rest ih =>
    intro fs p d h
    simp only [mkdirs]
    refine ih _ p d ?_
    by_cases hr : (FS.stat fs r).isSome
    · rw [if_pos hr]; exact h
    · rw [if_neg hr]
      by_cases hpr : p = r
      · exact absurd (by rw [← hpr, h]; rfl) hr
      · rw [FS.stat_set_ne fs r p _ hpr]; exact h

theorem stat_mkdirs_self (m : Nat) (l : List FsPath) :
    ∀ (fs : FS) (p : FsPath), p ∈ l → fs.stat p = none →
    (mkdirs m fs l).stat p = some (newDirMeta m) := by
  induction l with
  | nil => intro fs p hmem _; exact absurd hmem (List.not_mem_nil p)
  | cons r rest ih =>
    intro fs p hmem hmiss
    simp only [mkdirs]
    by_cases hpr : p = r
    · subst hpr
      rw [if_neg (show ¬(FS.stat fs p).isSome = true by rw [hmiss]; simp)]
      exact stat_mkdirs_present m rest _ p (newDirMeta m)
        (FS.stat_set_self fs p (newDirMeta m))
    · have hmem2 : p ∈ rest := by
        rcases List.mem_cons.mp hmem with h | h
        · exact absurd h hpr
        · exact h
      refine ih _ p hmem2 ?_
      by_cases hr : (FS.stat fs r).isSome
      · rw [if_pos hr]; exact hmiss
      · rw [if_neg hr, FS.stat_set_ne fs r p _ hpr]; exact hmiss

theorem childEntries_mkdirs (m : Nat) (l : List FsPath) :
    ∀ (fs : FS) (dir : FsPath), (∀ q ∈ l, childOf dir q = none) →
    childEntries (mkdirs m fs l) dir = childEntries fs dir := by
  induction l with
  | nil => intro fs dir _; rfl
  | cons r rest ih =>
    intro fs dir h
    simp only [mkdirs]
    rw [ih _ dir (fun q hq => h q (List.mem_cons_of_mem _ hq))]
    by_cases hr : (FS.stat fs r).isSome
    · rw [if_pos hr]
    · rw [if_neg hr]
      exact childEntries_set_notchild fs dir r _ (h r (List.mem_cons_self _ _))

theorem stat_runAction_notin (env : MutEnv) (fs : FS) (a : FixAction) (q : FsPath)
    (h : q ∉ actionWrites a) :
    ((runAction env fs a).1).stat q = fs.stat q := by
  cases a with
  | createFile p =>
    have hqp : q ≠ p := by simpa [actionWrites] using h
    simp only [runAction, opCreateFile]
    exact FS.stat_set_ne fs p q newFileMeta hqp
  | chmodPath p m =>
    have hqp : q ≠ p := by simpa [actionWrites] using h
    simp only [runAction, opChmod]
    cases hs : fs.stat p with
    | none => rfl
    | some fi =>
      dsimp only
      exact FS.stat_set_ne fs p q _ hqp
  | chownPath p o g =>
    have hqp : q ≠ p := by simpa [actionWrites] using h
    simp only [runAction, opChown]
    cases hs : fs.stat p with
    | none => rfl
    | some fi =>
      dsimp only
      split
      · rfl
      · split
        · rfl
        · exact FS.stat_set_ne fs p q _ hqp
  | mkdirPath p m =>
    have hq : q ∉ pathPrefixes p := by simpa [actionWrites] using h
    simp only [runAction, opMkdirAll]
    cases hs : fs.stat p with
    | some fi =>
      dsimp only
      split <;> rfl
    | none =>
      dsimp only
      exact stat_mkdirs_notin m (pathPrefixes p) fs q hq

theorem childEntries_runAction (env : MutEnv) (fs : FS) (a : FixAction)
    (dir : FsPath) (h : ∀ r ∈ actionWrites a, childOf dir r = none) :
    childEntries ((runAction env fs a).1) dir = childEntries fs dir := by
  cases a with
  | createFile p =>
    have hp := h p (by simp [actionWrites])
    simp only [runAction, opCreateFile]
    exact childEntries_set_notchild fs dir p newFileMeta hp
  | chmodPath p m =>
    have hp := h p (by simp [actionWrites])
    simp only [runAction, opChmod]
    cases hs : fs.stat p with
    | none => rfl
    | some fi =>
      dsimp only
      exact childEntries_set_notchild fs dir p _ hp
  | chownPath p o g =>
    have hp := h p (by simp [actionWrites])
    simp only [runAction, opChown]
    cases hs : fs.stat p with
    | none => rfl
    | some fi =>
      dsimp only
      split
      · rfl
      · split
        · rfl
        · exact childEntries_set_notchild fs dir p _ hp
  | mkdirPath p m =>
    have hp : ∀ r ∈ pathPrefixes p, childOf dir r = none := by
      intro r hr
      exact h r (by simpa [actionWrites] using hr)
    simp only [runAction, opMkdirAll]
    cases hs : fs.stat p with
    | some fi =>
      dsimp only
      split <;> rfl
    | none =>
      dsimp only
      exact childEntries_mkdirs m (pathPrefixes p) fs dir hp

theorem stat_execStep_notin (env : MutEnv) (st : FS × List String) (a : FixAction)
    (q : FsPath) (h : q ∉ actionWrites a) :
    ((execStep env st a).1).stat q = st.1.stat q := by
  have hpre := stat_runAction_notin env st.1 a q h
  unfold execStep
  rcases hr : runAction env st.1 a with ⟨fs2, e?⟩
  rw [hr] at hpre
  cases e? with
  | none => exact hpre
  | some e => exact hpre

theorem childEntries_execStep (env : MutEnv) (st : FS × List String)
    (a : FixAction) (dir : FsPath)
    (h : ∀ r ∈ actionWrites a, childOf dir r = none) :
    childEntries ((execStep env st a).1) dir = childEntries st.1 dir := by
  have hpre := childEntries_runAction env st.1 a dir h
  unfold execStep
  rcases hr : runAction env st.1 a with ⟨fs2, e?⟩
  rw [hr] at hpre
  cases e? with
  | none => exact hpre
  | some e => exact hpre

theorem stat_execStep_mkdir_self (env : MutEnv) (st : FS × List String)
    (p : FsPath) (m : Nat) (hmiss : st.1.stat p = none)
    (hmem : p ∈ pathPrefixes p) :
    ((execStep env st (.mkdirPath p m)).1).stat p = some (newDirMeta m) := by
  unfold execStep runAction opMkdirAll
  dsimp only
  rw [hmiss]
  dsimp only
  exact stat_mkdirs_self m (pathPrefixes p) st.1 p hmem hmiss

theorem fixStage3_stat_prov (env : MutEnv) (fs : FS) :
    (fixStage3 env fs).1.stat providersDirPath = fs.stat providersDirPath := by
  unfold fixStage3
  rw [stat_execStep_notin _ _ _ _ (by decide),
      stat_execStep_notin _ _ _ _ (by decide)]
  unfold fixStage1
  cases hsp : fs.stat SystemDefaultPolicyPath with
  | none =>
    dsimp only
    exact stat_execStep_notin env (fs, []) _ providersDirPath (by decide)
  | some _ => rfl

theorem fixStage3_stat_plug (env : MutEnv) (fs : FS) :
    (fixStage3 env fs).1.stat pluginsDirPath = fs.stat pluginsDirPath := by
  unfold fixStage3
  rw [stat_execStep_notin _ _ _ _ (by decide),
      stat_execStep_notin _ _ _ _ (by decide)]
  unfold fixStage1
  cases hsp : fs.stat SystemDefaultPolicyPath with
  | none =>
    dsimp only
    exact stat_execStep_notin env (fs, []) _ pluginsDirPath (by decide)
  | some _ => rfl

theorem fixStage5_stat_plug (env : MutEnv) (fs : FS) :
    (fixStage5 env fs).1.stat pluginsDirPath = fs.stat pluginsDirPath := by
  unfold fixStage5
  rw [stat_execStep_notin _ _ _ _ (by decide)]
  unfold fixStage4
  cases hpv : (fixStage3 env fs).1.stat providersDirPath with
  | none =>
    dsimp only
    rw [stat_execStep_notin _ _ _ _ (by decide)]
    exact fixStage3_stat_plug env fs
  | some _ => exact fixStage3_stat_plug env fs

theorem fixStage5_child (env : MutEnv) (fs : FS) :
    childEntries (fixStage5 env fs).1 pluginsDirPath =
      childEntries fs pluginsDirPath := by
  unfold fixStage5
  rw [childEntries_execStep _ _ _ _ (by decide)]
  unfold fixStage4
  cases hpv : (fixStage3 env fs).1.stat providersDirPath with
  | none =>
    dsimp only
    rw [childEntries_execStep _ _ _ _ (by decide)]
    unfold fixStage3
    rw [childEntries_execStep _ _ _ _ (by decide),
        childEntries_execStep _ _ _ _ (by decide)]
    unfold fixStage1
    cases hsp : fs.stat SystemDefaultPolicyPath with
    | none =>
      dsimp only
      exact childEntries_execStep env (fs, []) _ pluginsDirPath (by decide)
    | some _ => rfl
  | some _ =>
    unfold fixStage3
    rw [childEntries_execStep _ _ _ _ (by decide),
        childEntries_execStep _ _ _ _ (by decide)]
    unfold fixStage1
    cases hsp : fs.stat SystemDefaultPolicyPath with
    | none =>
      dsimp only
      exact childEntries_execStep env (fs, []) _ pluginsDirPath (by decide)
    | some _ => rfl

theorem ymlNames_fixStage6 (env : MutEnv) (fs : FS)
    (horph : fs.stat pluginsDirPath = none →
      childEntries fs pluginsDirPath = []) :
    ymlNames (fixStage6 env fs).1 = ymlNames fs := by
  have hch5 := fixStage5_child env fs
  have hst5 := fixStage5_stat_plug env fs
  unfold fixStage6
  cases hplug : (fixStage5 env fs).1.stat pluginsDirPath with
  | some m =>
    dsimp only
    have hfs : fs.stat pluginsDirPath = some m := by rw [← hst5]; exact hplug
    unfold ymlNames
    rw [hplug, hfs, hch5]
  | none =>
    dsimp only
    have hfs : fs.stat pluginsDirPath = none := by rw [← hst5]; exact hplug
    have hnew := stat_execStep_mkdir_self env (fixStage5 env fs) pluginsDirPath
      0o750 hplug (by decide)
    have hch6 : childEntries
        ((execStep env (fixStage5 env fs)
          (.mkdirPath pluginsDirPath 0o750)).1) pluginsDirPath =
        childEntries fs pluginsDirPath := by
      rw [childEntries_execStep env (fixStage5 env fs) _ pluginsDirPath (by decide)]
      exact hch5
    unfold ymlNames
    rw [hnew, hfs]
    dsimp only [newDirMeta]
    rw [if_pos rfl, hch6, horph hfs]
    rfl

theorem foldl_ymlPairs (env : MutEnv) (names : List String) :
    ∀ st : FS × List String,
    List.foldl (execStep env) st
      (names.foldr (fun n acc =>
        FixAction.chmodPath (pluginsDirPath ++ [n]) ModeSystemPerms ::
        FixAction.chownPath (pluginsDirPath ++ [n]) "root" "" :: acc) []) =
    names.foldl (fun st n =>
      execStep env
        (execStep env st (.chmodPath (pluginsDirPath ++ [n]) ModeSystemPerms))
        (.chownPath (pluginsDirPath ++ [n]) "root" "")) st := by
  induction names with
  | nil => intro st; rfl
  | cons n rest ih =>
    intro st
    simp only [List.foldr_cons, List.foldl_cons]
    exact ih _

/-- The execution phase is exactly a fold of `execStep` over the plan
derived from the initial state: every action is attempted in order — an
earlier failure changes only the collected error list, never whether a
later action runs. -/
theorem fixExec_eq_foldl (env : MutEnv) (fs : FS)
    (horph : fs.stat pluginsDirPath = none →
      childEntries fs pluginsDirPath = []) :
    fixExec env fs = List.foldl (execStep env) (fs, []) (fixActions fs) := by
  unfold fixExec fixActions
  rw [List.foldl_append, List.foldl_append, List.foldl_append,
      List.foldl_append, List.foldl_append]
  have hA1 : List.foldl (execStep env) (fs, [])
      (match fs.stat SystemDefaultPolicyPath with
       | none => [FixAction.createFile SystemDefaultPolicyPath]
       | some _ => []) = fixStage1 env fs := by
    unfold fixStage1
    cases fs.stat SystemDefaultPolicyPath <;> rfl
  rw [hA1]
  have hA2 : List.foldl (execStep env) (fixStage1 env fs)
      [FixAction.chmodPath SystemDefaultPolicyPath ModeSystemPerms,
       FixAction.chownPath SystemDefaultPolicyPath "root" "opksshuser"] =
      fixStage3 env fs := rfl
  rw [hA2]
  have hA4 : List.foldl (execStep env) (fixStage3 env fs)
      (match fs.stat providersDirPath with
       | none => [FixAction.mkdirPath providersDirPath 0o750]
       | some _ => []) = fixStage4 env fs := by
    have hg := fixStage3_stat_prov env fs
    unfold fixStage4
    cases hpv : fs.stat providersDirPath with
    | none =>
      rw [hpv] at hg
      rw [hg]
      rfl
    | some v =>
      rw [hpv] at hg
      rw [hg]
      rfl
  rw [hA4]
  have hA5 : List.foldl (execStep env) (fixStage4 env fs)
      [FixAction.chownPath providersDirPath "root" ""] = fixStage5 env fs := rfl
  rw [hA5]
  have hA6 : List.foldl (execStep env) (fixStage5 env fs)
      (match fs.stat pluginsDirPath with
       | none => [FixAction.mkdirPath pluginsDirPath 0o750]
       | some _ => []) = fixStage6 env fs := by
    have hg := fixStage5_stat_plug env fs
    unfold fixStage6
    cases hpl : fs.stat pluginsDirPath with
    | none =>
      rw [hpl] at hg
      rw [hg]
      rfl
    | some v =>
      rw [hpl] at hg
      rw [hg]
      rfl
  rw [hA6]
  rw [foldl_ymlPairs env (ymlNames fs) (fixStage6 env fs)]
  rw [ymlNames_fixStage6 env fs horph]

/-- C6: a confirmed `permissions fix` run (elevated; `--yes` or an
affirmative prompt) executes the entire derived plan as a left fold: every
planned action is attempted in order even when earlier actions fail, each
individual failure is collected rather than stopping the run, and the
command errors with a message carrying the failure count iff at least one
action failed, succeeding otherwise.  (The hypothesis on the plugins
directory rules out orphan child entries under a missing directory, a state
no real filesystem produces.) -/
theorem fix_executes_whole_plan (env : MutEnv) (fs : FS)
    (confirm : Except String Bool) (yes verbose : Bool)
    (hgate : yes = true ∨ confirm = .ok true)
    (horph : fs.stat pluginsDirPath = none →
      childEntries fs pluginsDirPath = []) :
    runPermissionsFix env fs (.ok true) confirm false yes verbose =
      (let r := List.foldl (execStep env) (fs, []) (fixActions fs)
       (r.1,
         if r.2.length > 0 then
           .error ("fix completed with " ++ toString r.2.length ++ " errors")
         else .ok ())) := by
  have hexec := fixExec_eq_foldl env fs horph
  have hgateok : (if yes then Except.ok ()
      else
        match confirm with
        | .error e => Except.error e
        | .ok true => Except.ok ()
        | .ok false => Except.error "aborted by user") = Except.ok () := by
    rcases hgate with hy | hc
    · rw [hy]
      rfl
    · by_cases hy : yes
      · rw [if_pos hy]
      · rw [if_neg hy, hc]
  simp only [runPermissionsFix, Bool.false_eq_true, if_false, hgateok, hexec]
  split
  · rfl
  · rfl

/-- C6 witness: on an empty filesystem with no resolvable principals, the
confirmed run attempts all six derived actions; the two chown actions fail
and are both collected, the remaining actions still run, and the command
reports the failure count. -/
theorem fix_executes_whole_plan_witness :
    runPermissionsFix ⟨[], []⟩ [] (.ok true) (.ok true) false true false =
      (let r := List.foldl (execStep ⟨[], []⟩) (([] : FS), ([] : List String))
        (fixActions [])
       (r.1,
         if r.2.length > 0 then
           .error ("fix completed with " ++ toString r.2.length ++ " errors")
         else .ok ())) :=
  fix_executes_whole_plan ⟨[], []⟩ [] (.ok true) true false (Or.inl rfl)
    (fun _ => rfl)
